import Mathlib

/-!
Go-Back-N receiver (server.c, gbnpacket.c)

A shallow embedding of the receive loop of `main` in `server.c`.

* One iteration of `for (;;)` and one iteration of the teardown drain loop
  `while (1)` are functions from a state and an environment event to an
  outcome.
* The environment supplies, per iteration, what `recvfrom` returns, whether the
  following `sendto` returns the full size, the `SIGALRM` signal, and the
  stream of values returned by `drand48`.
* C behaviour that the language leaves undefined (signed overflow of
  `packet_rcvd + 1`, a `memcpy` outside `buffer` or reading past
  `currPacket.data`, `recvfrom` writing past `currPacket`, `printf ("%s")` of a
  buffer without terminator) is the outcome `undefined`.
* Only `sendto` calls are recorded as output; for each call the twelve header
  bytes are recorded (the 512 bytes of `data` of `ackmsg` and `currAck` are never
  written by the program). Text written by `printf` is not recorded.
-/

namespace GoBackN

/-! ## Machine integers and byte order -/

/-- One octet. -/
abbrev Byte := Fin 256

/-- Largest value of a C `int` (32 bits). -/
def INT_MAX : Int := 2147483647

/-- Conversion of a `uint32_t` value to `int` (two's complement, as gcc does). -/
def toInt32 (n : Nat) : Int :=
  if n % 4294967296 < 2147483648 then ((n % 4294967296 : Nat) : Int)
  else ((n % 4294967296 : Nat) : Int) - 4294967296

/-- Conversion of an `int` value to `uint32_t` (reduction modulo 2^32). -/
def toUInt32 (i : Int) : Nat := (i % 4294967296).toNat

/-- The value `ntohl` yields for a 32-bit word whose four bytes in memory are
`b0 b1 b2 b3`, in that order (network order is big-endian). -/
def ntohl (b0 b1 b2 b3 : Byte) : Nat :=
  b0.val * 16777216 + b1.val * 65536 + b2.val * 256 + b3.val

/-- The four bytes in memory of `htonl n`. -/
def htonl (n : Nat) : List Byte :=
  [⟨n / 16777216 % 256, Nat.mod_lt _ (by decide)⟩,
   ⟨n / 65536 % 256, Nat.mod_lt _ (by decide)⟩,
   ⟨n / 256 % 256, Nat.mod_lt _ (by decide)⟩,
   ⟨n % 256, Nat.mod_lt _ (by decide)⟩]

/-- The four bytes in memory of an `int` held in host byte order. -/
def hostBytes (bigEndianHost : Bool) (i : Int) : List Byte :=
  if bigEndianHost then htonl (toUInt32 i) else (htonl (toUInt32 i)).reverse

/-! ## gbnpacket.c -/

/-- Value of `sizeof (struct gbnpacket)`: three `int` fields and `char data[512]`. -/
def sizeofPacket : Nat := 524

/-- The record `struct gbnpacket`, fields read as C `int` values. -/
structure gbnpacket where
  type : Int
  seq_no : Int
  length : Int
  data : List Byte
deriving DecidableEq

/-- Byte `i` of a memory image. -/
def byteAt (mem : List Byte) (i : Nat) : Byte := mem.getD i 0

/-- The word at byte offset `off` of a memory image, passed through `ntohl`. -/
def wordAt (mem : List Byte) (off : Nat) : Nat :=
  ntohl (byteAt mem off) (byteAt mem (off + 1)) (byteAt mem (off + 2)) (byteAt mem (off + 3))

/-- Lines 89-91 of server.c: the three header fields of the memory image of
`currPacket` after `ntohl`, stored back into `int` fields; `data` is the rest. -/
def decode (mem : List Byte) : gbnpacket :=
  { type := toInt32 (wordAt mem 0)
    seq_no := toInt32 (wordAt mem 4)
    length := toInt32 (wordAt mem 8)
    data := mem.drop 12 }

/-- The header bytes of a packet whose fields were set to `htonl type`,
`htonl seq_no`, `htonl length` (lines 96-98, 123-125, 157-159). -/
def encodeHeader (type seq_no length : Int) : List Byte :=
  htonl (toUInt32 type) ++ htonl (toUInt32 seq_no) ++ htonl (toUInt32 length)

/-- Effect of `recvfrom (sock, mem, size, ...)` returning a datagram `bytes`:
the first `min bytes.length size` bytes of the memory image are overwritten. -/
def recvInto (mem : List Byte) (bytes : List Byte) (size : Nat) : List Byte :=
  bytes.take (min bytes.length size) ++ mem.drop (min bytes.length size)

/-- Effect of `memset (&currPacket, 0, sizeof (currPacket))`. -/
def zeroPacket : List Byte := List.replicate sizeofPacket 0

/-! ## server.c: state, environment, outcome -/

/-- Command line values: `chunkSize = atoi (argv[2])`, `lossRate = atof (argv[3])`
(or 0.0). A finite `double` is a rational number, and `drand48` returns an
exactly represented multiple of 2^-48, so the comparison `lossRate > drand48 ()`
is the comparison of rationals. `bigEndianHost` is the byte order of the
machine, which decides the memory image of `currPacket` after lines 89-91. -/
structure Config where
  chunkSize : Int
  lossRate : ℚ
  bigEndianHost : Bool

/-- Where control is: top of `for (;;)`, top of the drain loop `while (1)`
(with the memory image of `currPacket`, which that loop never clears), or
after `exit (status)`. -/
inductive Control where
  | mainLoop
  | drainLoop (currPacket : List Byte)
  | exited (status : Nat)
deriving DecidableEq

/-- Variables of `main` that live across iterations. `buffer i` is `buffer[i]`
for `i < 8193`; `drawn` counts the calls of `drand48` made so far. -/
structure State where
  packet_rcvd : Int
  buffer : Nat → Byte
  drawn : Nat
  control : Control

/-- What `recvfrom` returns: a datagram, or -1 with `errno` equal to `EINTR` or not. -/
inductive Recv where
  | datagram (bytes : List Byte)
  | error (eintr : Bool)

/-- One environment event: a return of `recvfrom` together with whether the
`sendto` that may follow returns the full size, or delivery of `SIGALRM`. -/
inductive Event where
  | recv (r : Recv) (sendOk : Bool)
  | alarm

/-- Result of one iteration: the next state and the headers handed to `sendto`,
or undefined behaviour. -/
inductive Outcome where
  | ok (s : State) (sent : List (List Byte))
  | undefined

/-- The value returned by the `n`-th call of `drand48`, given the 48-bit
generator state `rng n`: a rational in [0, 1). -/
def drand48 (rng : Nat → Fin 281474976710656) (n : Nat) : ℚ :=
  ((rng n).val : ℚ) / 281474976710656

/-- The function `DieWithError`: `perror` then `exit (1)`. -/
def DieWithError (s : State) : State := { s with control := Control.exited 1 }

/-- The function `CatchAlarm`: `exit (0)`. -/
def CatchAlarm (s : State) : State := { s with control := Control.exited 0 }

/-- State after lines 31-44: `packet_rcvd = -1`, `buffer` zeroed. -/
def fresh : State :=
  { packet_rcvd := -1, buffer := fun _ => 0, drawn := 0, control := .mainLoop }

/-- Effect of `memcpy (&buffer[off], data, len)` on `buffer`. -/
def memcpy (buffer : Nat → Byte) (off : Nat) (data : List Byte) (len : Nat) : Nat → Byte :=
  fun i => if off ≤ i ∧ i < off + len then byteAt data (i - off) else buffer i

/-- Whether one of `buffer[i] .. buffer[i + n - 1]` is the null byte. -/
def hasNul (buffer : Nat → Byte) : Nat → Nat → Bool
  | _, 0 => false
  | i, n + 1 => buffer i = 0 || hasNul buffer (i + 1) n

/-- Value of `sizeof (int)*3+chunkSize` as a `size_t` (64 bits). -/
def drainRecvSize (cfg : Config) : Nat :=
  ((12 + cfg.chunkSize) % 18446744073709551616).toNat

/-- The teardown acknowledgement `ackmsg`: type 8, seq_no 0, length 0. -/
def ackmsg : List Byte := encodeHeader 8 0 0

/-- The acknowledgement `currAck` for the value of `packet_rcvd`. -/
def currAck (packet_rcvd : Int) : List Byte := encodeHeader 2 packet_rcvd 0

/-- Lines 143-164: the `else` branch of the main loop, for a packet whose type
is not 4. -/
def dataPath (cfg : Config) (rng : Nat → Fin 281474976710656) (s : State)
    (currPacket : gbnpacket) (sendOk : Bool) : Outcome :=
  if cfg.lossRate > drand48 rng s.drawn then
    .ok { s with drawn := s.drawn + 1 } []
  else if s.packet_rcvd = INT_MAX then
    .undefined
  else if currPacket.seq_no = s.packet_rcvd + 1 then
    let buff_offset := cfg.chunkSize * currPacket.seq_no
    if 0 ≤ buff_offset ∧ 0 ≤ currPacket.length ∧ currPacket.length ≤ 512
        ∧ buff_offset + currPacket.length ≤ 8193 then
      let s1 : State :=
        { packet_rcvd := s.packet_rcvd + 1
          buffer := memcpy s.buffer buff_offset.toNat currPacket.data currPacket.length.toNat
          drawn := s.drawn + 1
          control := .mainLoop }
      .ok (if sendOk then s1 else DieWithError s1) [currAck s1.packet_rcvd]
    else
      .undefined
  else
    let s1 : State := { s with drawn := s.drawn + 1 }
    .ok (if sendOk then s1 else DieWithError s1) [currAck s1.packet_rcvd]

/-- Lines 85-88: the memory image of `currPacket` after `memset` and
`recvfrom (sock, &currPacket, sizeof (currPacket), ...)`. -/
def mainRecv (r : Recv) : List Byte :=
  match r with
  | .datagram bytes => recvInto zeroPacket bytes sizeofPacket
  | .error _ => zeroPacket

/-- The memory image of `currPacket` when the drain loop is entered: lines 89-91
have stored the three header fields back in host byte order; `data` is as
received. -/
def drainEntry (cfg : Config) (mem : List Byte) : List Byte :=
  hostBytes cfg.bigEndianHost (decode mem).type
    ++ hostBytes cfg.bigEndianHost (decode mem).seq_no
    ++ hostBytes cfg.bigEndianHost (decode mem).length ++ mem.drop 12

/-- Lines 83-165: one iteration of `for (;;)`. A failed `recvfrom` leaves the
zeroed `currPacket` as it is, and its return value is not inspected. -/
def mainIter (cfg : Config) (rng : Nat → Fin 281474976710656) (s : State)
    (r : Recv) (sendOk : Bool) : Outcome :=
  let mem := mainRecv r
  let currPacket := decode mem
  if currPacket.type = 4 then
    if hasNul s.buffer 0 8193 then
      if sendOk then
        .ok { s with control := Control.drainLoop (drainEntry cfg mem) } [ackmsg]
      else
        .ok (DieWithError s) [ackmsg]
    else
      .undefined
  else
    dataPath cfg rng s currPacket sendOk

/-- Lines 109-135: one return of `recvfrom` inside the drain loop. -/
def drainIter (cfg : Config) (s : State) (mem : List Byte) (r : Recv) (sendOk : Bool) :
    Outcome :=
  match r with
  | .error eintr => if eintr then .ok { s with control := Control.exited 0 } [] else .ok s []
  | .datagram bytes =>
    if min bytes.length (drainRecvSize cfg) > sizeofPacket then
      .undefined
    else
      let mem1 := recvInto mem bytes (drainRecvSize cfg)
      if wordAt mem1 0 = 4 then
        if sendOk then .ok { s with control := Control.drainLoop mem1 } [ackmsg]
        else .ok (DieWithError s) [ackmsg]
      else
        .ok { s with control := Control.drainLoop mem1 } []

/-- One step of the process on one environment event. A process that has
exited does nothing more. -/
def step (cfg : Config) (rng : Nat → Fin 281474976710656) (s : State) (e : Event) : Outcome :=
  match s.control with
  | .exited _ => .ok s []
  | .mainLoop =>
    match e with
    | .alarm => .ok (CatchAlarm s) []
    | .recv r sendOk => mainIter cfg rng s r sendOk
  | .drainLoop mem =>
    match e with
    | .alarm => .ok (CatchAlarm s) []
    | .recv r sendOk => drainIter cfg s mem r sendOk

/-- The process on a finite sequence of events, from state `s`; the headers
sent are collected in order. -/
def run (cfg : Config) (rng : Nat → Fin 281474976710656) : State → List Event → Outcome
  | s, [] => .ok s []
  | s, e :: es =>
    match step cfg rng s e with
    | .undefined => .undefined
    | .ok s1 sent1 =>
      match run cfg rng s1 es with
      | .undefined => .undefined
      | .ok s2 sent2 => .ok s2 (sent1 ++ sent2)

/-- The function `main` after start-up, on a finite sequence of events. -/
def main (cfg : Config) (rng : Nat → Fin 281474976710656) (es : List Event) : Outcome :=
  run cfg rng fresh es

/-! ## Names used in the statements -/

/-- The packet the main loop works with when `recvfrom` returns the datagram
`bytes`: the fields of the zero-filled `currPacket` after lines 87-91. -/
def received (bytes : List Byte) : gbnpacket := decode (mainRecv (.datagram bytes))

/-- A datagram as a sender writes it: header with type 0, the sequence number
and the payload length in network order, then the payload. -/
def dataPacket (seq_no : Nat) (payload : List Byte) : List Byte :=
  encodeHeader 0 seq_no payload.length ++ payload

/-- The events of delivering `payloads` as data packets numbered `k`, `k + 1`,
..., each followed by a complete `sendto`. -/
def inOrder : Nat → List (List Byte) → List Event
  | _, [] => []
  | k, p :: ps => .recv (.datagram (dataPacket k p)) true :: inOrder (k + 1) ps

/-- The buffer after copying payload number `k + i` of `payloads` to offset
`(k + i) * c`, for each `i` in turn. -/
def place (c : Nat) : Nat → List (List Byte) → (Nat → Byte) → Nat → Byte
  | _, [], buffer => buffer
  | k, p :: ps, buffer => place c (k + 1) ps (memcpy buffer (k * c) p p.length)

/-- Every payload, numbered from `k`, lies inside `buffer` at its offset. -/
def fits (c : Nat) : Nat → List (List Byte) → Prop
  | _, [] => True
  | k, p :: ps => k * c + p.length ≤ 8193 ∧ fits c (k + 1) ps

/-! ## Concrete inputs -/

/-- Chunk size 10, loss rate 0, little-endian host. -/
def cfg10 : Config := { chunkSize := 10, lossRate := 0, bigEndianHost := false }

/-- Chunk size 10, loss rate 1. -/
def cfgLossy : Config := { chunkSize := 10, lossRate := 1, bigEndianHost := false }

/-- Chunk size 512, loss rate 0. -/
def cfg512 : Config := { chunkSize := 512, lossRate := 0, bigEndianHost := false }

/-- A generator whose every sample is 0. -/
def rng0 : Nat → Fin 281474976710656 := fun _ => 0

/-- The bytes of "HelloWorld". -/
def helloWorld : List Byte := [72, 101, 108, 108, 111, 87, 111, 114, 108, 100]

/-- The bytes of "SkippedSeq". -/
def skippedSeq : List Byte := [83, 107, 105, 112, 112, 101, 100, 83, 101, 113]

/-- The bytes of "MiddleData". -/
def middleData : List Byte := [77, 105, 100, 100, 108, 101, 68, 97, 116, 97]

/-- The state after a fresh receiver accepted DATA 0 "HelloWorld" with chunk size 10. -/
def afterHello : State :=
  { packet_rcvd := 0
    buffer := memcpy fresh.buffer 0 (received (dataPacket 0 helloWorld)).data 10
    drawn := 1
    control := .mainLoop }

/-- A TEARDOWN datagram: type 4, seq_no 0, length 0, no payload. -/
def teardown : List Byte := encodeHeader 4 0 0

/-- A state in the main loop with `packet_rcvd = 15` and a zeroed buffer. -/
def after16 : State :=
  { packet_rcvd := 15, buffer := fun _ => 0, drawn := 16, control := .mainLoop }

/-- A state in the drain loop, entered from the fresh state by `teardown` on a
little-endian host. -/
def closing : State :=
  { fresh with control := .drainLoop ([4, 0, 0, 0] ++ List.replicate 520 0) }

/-- The memory image of `currPacket` in the drain loop after a `teardown`
datagram was received there: the type bytes are 0, 0, 0, 4. -/
def staleMem : List Byte := [0, 0, 0, 4] ++ List.replicate 520 0

/-- The bytes of "Hello". -/
def hello5 : List Byte := [72, 101, 108, 108, 111]

/-- The bytes of "World". -/
def world5 : List Byte := [87, 111, 114, 108, 100]

/-! ## Codec lemmas -/

theorem toInt32_range (n : Nat) : -2147483648 ≤ toInt32 n ∧ toInt32 n < 2147483648 := by
  unfold toInt32
  split <;> omega

theorem toInt32_toUInt32 (i : Int) (h1 : -2147483648 ≤ i) (h2 : i < 2147483648) :
    toInt32 (toUInt32 i) = i := by
  unfold toInt32 toUInt32
  split <;> omega

theorem wordAt_header0 (a b c : Nat) (post : List Byte) :
    wordAt (htonl a ++ htonl b ++ htonl c ++ post) 0 = a % 4294967296 := by
  simp [wordAt, byteAt, htonl, ntohl]
  omega

theorem wordAt_header4 (a b c : Nat) (post : List Byte) :
    wordAt (htonl a ++ htonl b ++ htonl c ++ post) 4 = b % 4294967296 := by
  simp [wordAt, byteAt, htonl, ntohl]
  omega

theorem wordAt_header8 (a b c : Nat) (post : List Byte) :
    wordAt (htonl a ++ htonl b ++ htonl c ++ post) 8 = c % 4294967296 := by
  simp [wordAt, byteAt, htonl, ntohl]
  omega

theorem toInt32_mod (n : Nat) : toInt32 (n % 4294967296) = toInt32 n := by
  unfold toInt32
  simp

/-- Decoding a header built by `encodeHeader`, followed by any bytes. -/
theorem decode_encodeHeader (t q l : Int) (post : List Byte) :
    decode (encodeHeader t q l ++ post)
      = { type := toInt32 (toUInt32 t), seq_no := toInt32 (toUInt32 q),
          length := toInt32 (toUInt32 l), data := post } := by
  unfold decode encodeHeader
  rw [wordAt_header0, wordAt_header4, wordAt_header8, toInt32_mod, toInt32_mod, toInt32_mod]
  simp [htonl]

theorem currAck_decode (n : Int) (h1 : -2147483648 ≤ n) (h2 : n < 2147483648) :
    decode (currAck n) = { type := 2, seq_no := n, length := 0, data := [] } := by
  have h := decode_encodeHeader 2 n 0 []
  rw [List.append_nil] at h
  rw [currAck, h, toInt32_toUInt32 n h1 h2]
  rfl

theorem ackmsg_decode : decode ackmsg = { type := 8, seq_no := 0, length := 0, data := [] } := by
  decide

theorem received_seq_range (bytes : List Byte) :
    -2147483648 ≤ (received bytes).seq_no ∧ (received bytes).seq_no < 2147483648 :=
  toInt32_range _

/-! ## The data path, one packet -/

/-- The main loop on an in-order packet that passes the loss gate and whose copy
lies inside `buffer`. -/
theorem step_accept (cfg : Config) (rng : Nat → Fin 281474976710656) (s : State)
    (bytes : List Byte) (sendOk : Bool)
    (hopen : s.control = Control.mainLoop)
    (htype : (received bytes).type ≠ 4)
    (hgate : ¬ cfg.lossRate > drand48 rng s.drawn)
    (hseq : (received bytes).seq_no = s.packet_rcvd + 1)
    (hlen : 0 ≤ (received bytes).length ∧ (received bytes).length ≤ 512)
    (hoff : 0 ≤ cfg.chunkSize * (received bytes).seq_no)
    (hfit : cfg.chunkSize * (received bytes).seq_no + (received bytes).length ≤ 8193) :
    step cfg rng s (.recv (.datagram bytes) sendOk)
      = .ok
          { packet_rcvd := (received bytes).seq_no
            buffer := memcpy s.buffer (cfg.chunkSize * (received bytes).seq_no).toNat
              (received bytes).data (received bytes).length.toNat
            drawn := s.drawn + 1
            control := if sendOk then Control.mainLoop else Control.exited 1 }
          [currAck (received bytes).seq_no] := by
  have hr := received_seq_range bytes
  have hmax : s.packet_rcvd ≠ INT_MAX := by
    intro h
    rw [h] at hseq
    simp only [INT_MAX] at hseq
    omega
  unfold received at *
  simp only [step, hopen, mainIter, if_neg htype, dataPath, if_neg hgate, if_neg hmax,
    if_pos hseq, hoff, hlen, hfit, and_self, if_true]
  cases sendOk <;> simp [DieWithError, hseq]

/-- The main loop on a packet that passes the loss gate and is not the next one. -/
theorem step_reject (cfg : Config) (rng : Nat → Fin 281474976710656) (s : State)
    (r : Recv) (sendOk : Bool)
    (hopen : s.control = Control.mainLoop)
    (htype : (decode (mainRecv r)).type ≠ 4)
    (hgate : ¬ cfg.lossRate > drand48 rng s.drawn)
    (hseq : (decode (mainRecv r)).seq_no ≠ s.packet_rcvd + 1)
    (hmax : s.packet_rcvd ≠ INT_MAX) :
    step cfg rng s (.recv r sendOk)
      = .ok
          { packet_rcvd := s.packet_rcvd
            buffer := s.buffer
            drawn := s.drawn + 1
            control := if sendOk then Control.mainLoop else Control.exited 1 }
          [currAck s.packet_rcvd] := by
  simp only [step, hopen, mainIter, if_neg htype, dataPath, if_neg hgate, if_neg hmax,
    if_neg hseq]
  cases sendOk <;> simp [DieWithError, hopen]

/-- The main loop on a packet of type other than 4 that the loss gate drops. -/
theorem step_drop (cfg : Config) (rng : Nat → Fin 281474976710656) (s : State)
    (r : Recv) (sendOk : Bool)
    (hopen : s.control = Control.mainLoop)
    (htype : (decode (mainRecv r)).type ≠ 4)
    (hgate : cfg.lossRate > drand48 rng s.drawn) :
    step cfg rng s (.recv r sendOk) = .ok { s with drawn := s.drawn + 1 } [] := by
  simp only [step, hopen, mainIter, if_neg htype, dataPath, if_pos hgate]

/-! ## C1, C2: accept and reject -/

theorem memcpy_inside (buffer : Nat → Byte) (off : Nat) (data : List Byte) (len i : Nat)
    (h : i < len) : memcpy buffer off data len (off + i) = byteAt data i := by
  simp [memcpy, h]

theorem memcpy_outside (buffer : Nat → Byte) (off : Nat) (data : List Byte) (len j : Nat)
    (h : j < off ∨ off + len ≤ j) : memcpy buffer off data len j = buffer j := by
  have h1 : ¬ (off ≤ j ∧ j < off + len) := by omega
  simp [memcpy, h1]

theorem gate_zero (rng : Nat → Fin 281474976710656) (n : Nat) : ¬ (0 : ℚ) > drand48 rng n := by
  unfold drand48
  have h : (0 : ℚ) ≤ ((rng n).val : ℚ) / 281474976710656 := by positivity
  exact not_lt.mpr h

theorem gate_one (rng : Nat → Fin 281474976710656) (n : Nat) : (1 : ℚ) > drand48 rng n := by
  unfold drand48
  have h : ((rng n).val : ℚ) < 281474976710656 := by exact_mod_cast (rng n).isLt
  rw [gt_iff_lt, div_lt_one (by norm_num)]
  exact h

/-- C1. Accept step: in the main loop, a packet of type other than 4 that passes
the loss gate, carries `seq_no = packet_rcvd + 1`, has a length between 0 and 512
and whose copy lies inside the 8193 bytes of `buffer` is copied to offset
`chunkSize * seq_no` (exactly `length` bytes of its data, every other byte of the
buffer unchanged), `packet_rcvd` becomes its `seq_no`, and exactly one header is
sent, which decodes to type 2, that `seq_no`, length 0. -/
theorem accept_step (cfg : Config) (rng : Nat → Fin 281474976710656) (s : State)
    (bytes : List Byte) (sendOk : Bool)
    (hopen : s.control = Control.mainLoop)
    (htype : (received bytes).type ≠ 4)
    (hgate : ¬ cfg.lossRate > drand48 rng s.drawn)
    (hseq : (received bytes).seq_no = s.packet_rcvd + 1)
    (hlen : 0 ≤ (received bytes).length ∧ (received bytes).length ≤ 512)
    (hoff : 0 ≤ cfg.chunkSize * (received bytes).seq_no)
    (hfit : cfg.chunkSize * (received bytes).seq_no + (received bytes).length ≤ 8193) :
    ∃ s1 : State,
      step cfg rng s (.recv (.datagram bytes) sendOk)
        = .ok s1 [currAck (received bytes).seq_no]
      ∧ s1.packet_rcvd = (received bytes).seq_no
      ∧ (∀ i : Nat, i < (received bytes).length.toNat →
          s1.buffer ((cfg.chunkSize * (received bytes).seq_no).toNat + i)
            = byteAt (received bytes).data i)
      ∧ (∀ j : Nat, (j < (cfg.chunkSize * (received bytes).seq_no).toNat
            ∨ (cfg.chunkSize * (received bytes).seq_no).toNat
                + (received bytes).length.toNat ≤ j) →
          s1.buffer j = s.buffer j)
      ∧ decode (currAck (received bytes).seq_no)
        = { type := 2, seq_no := s1.packet_rcvd, length := 0, data := [] } := by
  have hr := received_seq_range bytes
  refine ⟨_, step_accept cfg rng s bytes sendOk hopen htype hgate hseq hlen hoff hfit,
    rfl, ?_, ?_, ?_⟩
  · intro i hi
    exact memcpy_inside _ _ _ _ _ hi
  · intro j hj
    exact memcpy_outside _ _ _ _ _ hj
  · exact currAck_decode _ hr.1 hr.2

/-- C1 at chunk size 10, fresh receiver, DATA 0 "HelloWorld". -/
theorem accept_step_witness :
    ∃ s1 : State,
      step cfg10 rng0 fresh (.recv (.datagram (dataPacket 0 helloWorld)) true)
        = .ok s1 [currAck 0]
      ∧ s1.packet_rcvd = 0
      ∧ (∀ i : Nat, i < 10 → s1.buffer (0 + i) = byteAt helloWorld i)
      ∧ (∀ j : Nat, (j < 0 ∨ 0 + 10 ≤ j) → s1.buffer j = fresh.buffer j)
      ∧ decode (currAck 0) = { type := 2, seq_no := s1.packet_rcvd, length := 0, data := [] } := by
  obtain ⟨s1, h1, h2, h3, h4, h5⟩ :=
    accept_step cfg10 rng0 fresh (dataPacket 0 helloWorld) true rfl (by decide)
      (gate_zero rng0 0) (by decide) (by decide) (by decide) (by decide)
  refine ⟨s1, h1, h2, ?_, h4, h5⟩
  intro i hi
  refine Eq.trans (h3 i hi) ?_
  have : i = 0 ∨ i = 1 ∨ i = 2 ∨ i = 3 ∨ i = 4 ∨ i = 5 ∨ i = 6 ∨ i = 7 ∨ i = 8 ∨ i = 9 := by
    omega
  rcases this with h | h | h | h | h | h | h | h | h | h <;> subst h <;> decide

/-- C2. Reject step: in the main loop, a packet of type other than 4 that passes
the loss gate and whose `seq_no` differs from `packet_rcvd + 1` leaves `buffer` and
`packet_rcvd` as they are, and exactly one header is sent, which decodes to type 2,
the unchanged `packet_rcvd`, length 0. (`packet_rcvd` is a C `int` below
`INT_MAX`.) -/
theorem reject_step (cfg : Config) (rng : Nat → Fin 281474976710656) (s : State)
    (bytes : List Byte) (sendOk : Bool)
    (hopen : s.control = Control.mainLoop)
    (htype : (received bytes).type ≠ 4)
    (hgate : ¬ cfg.lossRate > drand48 rng s.drawn)
    (hseq : (received bytes).seq_no ≠ s.packet_rcvd + 1)
    (hint : -2147483648 ≤ s.packet_rcvd ∧ s.packet_rcvd < 2147483647) :
    ∃ s1 : State,
      step cfg rng s (.recv (.datagram bytes) sendOk) = .ok s1 [currAck s.packet_rcvd]
      ∧ s1.buffer = s.buffer
      ∧ s1.packet_rcvd = s.packet_rcvd
      ∧ decode (currAck s.packet_rcvd)
        = { type := 2, seq_no := s.packet_rcvd, length := 0, data := [] } := by
  have hmax : s.packet_rcvd ≠ INT_MAX := by
    simp only [INT_MAX]
    omega
  exact ⟨_, step_reject cfg rng s (.datagram bytes) sendOk hopen htype hgate hseq hmax,
    rfl, rfl, currAck_decode _ hint.1 (by omega)⟩

/-- C2 at chunk size 10: after DATA 0 "HelloWorld" was accepted, DATA 2
"SkippedSeq" is answered with ACK 0 and the buffer is unchanged. -/
theorem reject_step_witness :
    step cfg10 rng0 fresh (.recv (.datagram (dataPacket 0 helloWorld)) true)
      = .ok afterHello [currAck 0]
    ∧ ∃ s1 : State,
      step cfg10 rng0 afterHello (.recv (.datagram (dataPacket 2 skippedSeq)) true)
        = .ok s1 [currAck 0]
      ∧ s1.buffer = afterHello.buffer
      ∧ s1.packet_rcvd = 0
      ∧ decode (currAck 0) = { type := 2, seq_no := 0, length := 0, data := [] } :=
  ⟨step_accept cfg10 rng0 fresh (dataPacket 0 helloWorld) true rfl (by decide)
      (gate_zero rng0 0) (by decide) (by decide) (by decide) (by decide),
    reject_step cfg10 rng0 afterHello (dataPacket 2 skippedSeq) true rfl (by decide)
      (gate_zero rng0 1) (by decide) (by decide)⟩

/-! ## Memory images -/

theorem byteAt_zeroPacket (i : Nat) : byteAt zeroPacket i = 0 := by
  unfold byteAt zeroPacket
  by_cases h : i < sizeofPacket
  · rw [List.getD_eq_getElem _ _ (by simpa using h)]
    simp
  · rw [List.getD_eq_default _ _ (by simpa using h)]

theorem byteAt_beyond (mem : List Byte) (i : Nat) (h : mem.length ≤ i) : byteAt mem i = 0 := by
  unfold byteAt
  exact List.getD_eq_default _ _ h

theorem byteAt_recvInto_lt (mem bytes : List Byte) (size i : Nat)
    (h : i < min bytes.length size) :
    byteAt (recvInto mem bytes size) i = byteAt bytes i := by
  unfold byteAt recvInto
  have h1 : i < (bytes.take (min bytes.length size)).length := by
    rw [List.length_take]
    omega
  have h2 : i < bytes.length := by omega
  rw [List.getD_append _ _ _ _ h1, List.getD_eq_getElem _ _ h1, List.getD_eq_getElem _ _ h2]
  simp

theorem byteAt_recvInto_ge (mem bytes : List Byte) (size i : Nat)
    (h : min bytes.length size ≤ i) :
    byteAt (recvInto mem bytes size) i = byteAt mem i := by
  unfold byteAt recvInto
  have h1 : (bytes.take (min bytes.length size)).length = min bytes.length size := by
    rw [List.length_take]
    omega
  rw [List.getD_append_right _ _ _ _ (by omega), h1]
  simp only [List.getD_eq_getElem?_getD, List.getElem?_drop]
  congr 2
  omega

theorem byteAt_mainRecv (bytes : List Byte) (i : Nat) (hi : i < 524) :
    byteAt (mainRecv (.datagram bytes)) i = byteAt bytes i := by
  unfold mainRecv
  by_cases h : i < min bytes.length sizeofPacket
  · exact byteAt_recvInto_lt _ _ _ _ h
  · rw [byteAt_recvInto_ge _ _ _ _ (by omega), byteAt_zeroPacket, byteAt_beyond]
    simp only [sizeofPacket] at h
    omega

theorem wordAt_mainRecv (bytes : List Byte) (off : Nat) (h : off + 3 < 524) :
    wordAt (mainRecv (.datagram bytes)) off = wordAt bytes off := by
  unfold wordAt
  rw [byteAt_mainRecv _ _ (by omega), byteAt_mainRecv _ _ (by omega),
    byteAt_mainRecv _ _ (by omega), byteAt_mainRecv _ _ (by omega)]

theorem wordAt_lt (mem : List Byte) (off : Nat) : wordAt mem off < 4294967296 := by
  unfold wordAt ntohl
  have h0 := (byteAt mem off).isLt
  have h1 := (byteAt mem (off + 1)).isLt
  have h2 := (byteAt mem (off + 2)).isLt
  have h3 := (byteAt mem (off + 3)).isLt
  omega

theorem received_type (bytes : List Byte) :
    (received bytes).type = toInt32 (wordAt bytes 0) := by
  unfold received decode
  rw [wordAt_mainRecv _ _ (by omega)]

/-- A datagram whose type field reads 4 has at least four bytes, and they are
0, 0, 0, 4. -/
theorem type_four (bytes : List Byte) (h : (received bytes).type = 4) :
    4 ≤ bytes.length ∧ wordAt bytes 0 = 4 := by
  rw [received_type] at h
  have hlt := wordAt_lt bytes 0
  have hw : wordAt bytes 0 = 4 := by
    unfold toInt32 at h
    split at h <;> omega
  refine ⟨?_, hw⟩
  by_contra hc
  have h3 : byteAt bytes 3 = 0 := byteAt_beyond _ _ (by omega)
  unfold wordAt ntohl at hw
  simp only [Nat.zero_add] at hw
  rw [h3] at hw
  have h0 := (byteAt bytes 0).isLt
  have h1 := (byteAt bytes 1).isLt
  have h2 := (byteAt bytes 2).isLt
  simp at hw
  omega

theorem wordAt_recvInto (mem bytes : List Byte) (size : Nat) (hb : 4 ≤ bytes.length)
    (hs : 4 ≤ size) : wordAt (recvInto mem bytes size) 0 = wordAt bytes 0 := by
  unfold wordAt
  rw [byteAt_recvInto_lt _ _ _ _ (by omega), byteAt_recvInto_lt _ _ _ _ (by omega),
    byteAt_recvInto_lt _ _ _ _ (by omega), byteAt_recvInto_lt _ _ _ _ (by omega)]

theorem drainRecvSize_eq (cfg : Config) (h0 : 0 ≤ cfg.chunkSize) (h1 : cfg.chunkSize ≤ 512) :
    drainRecvSize cfg = 12 + cfg.chunkSize.toNat := by
  unfold drainRecvSize
  omega

/-! ## Teardown, one packet -/

/-- The main loop on a packet of type 4. -/
theorem step_teardown_open (cfg : Config) (rng : Nat → Fin 281474976710656) (s : State)
    (r : Recv) (sendOk : Bool)
    (hopen : s.control = Control.mainLoop)
    (htype : (decode (mainRecv r)).type = 4)
    (hnul : hasNul s.buffer 0 8193 = true) :
    step cfg rng s (.recv r sendOk)
      = .ok
          { s with control :=
              if sendOk then Control.drainLoop (drainEntry cfg (mainRecv r))
              else Control.exited 1 }
          [ackmsg] := by
  simp only [step, hopen, mainIter, if_pos htype, hnul, if_true]
  cases sendOk <;> simp [DieWithError, drainEntry]

/-- The drain loop on a datagram of type 4, for a chunk size between 0 and 512. -/
theorem step_teardown_closing (cfg : Config) (rng : Nat → Fin 281474976710656) (s : State)
    (mem bytes : List Byte) (sendOk : Bool)
    (hclosing : s.control = Control.drainLoop mem)
    (htype : (received bytes).type = 4)
    (h0 : 0 ≤ cfg.chunkSize) (h1 : cfg.chunkSize ≤ 512) :
    step cfg rng s (.recv (.datagram bytes) sendOk)
      = .ok
          { s with control :=
              if sendOk then Control.drainLoop (recvInto mem bytes (drainRecvSize cfg))
              else Control.exited 1 }
          [ackmsg] := by
  have hsz := drainRecvSize_eq cfg h0 h1
  have ht := type_four bytes htype
  have hw : wordAt (recvInto mem bytes (drainRecvSize cfg)) 0 = 4 := by
    rw [wordAt_recvInto _ _ _ ht.1 (by omega)]
    exact ht.2
  have hsmall : ¬ min bytes.length (drainRecvSize cfg) > sizeofPacket := by
    simp only [sizeofPacket]
    omega
  simp only [step, hclosing, drainIter, if_neg hsmall, if_pos hw]
  cases sendOk <;> simp [DieWithError]

/-- The alarm ends the process with status 0, in the main loop and in the drain loop. -/
theorem step_alarm (cfg : Config) (rng : Nat → Fin 281474976710656) (s : State)
    (h : ∀ k, s.control ≠ Control.exited k) :
    step cfg rng s .alarm = .ok { s with control := Control.exited 0 } [] := by
  unfold step
  cases hc : s.control with
  | exited k => exact absurd hc (h k)
  | mainLoop => rfl
  | drainLoop mem => rfl

/-- After `exit` nothing happens. -/
theorem step_exited (cfg : Config) (rng : Nat → Fin 281474976710656) (s : State) (k : Nat)
    (h : s.control = Control.exited k) (e : Event) : step cfg rng s e = .ok s [] := by
  simp [step, h]

/-- C4. Teardown idempotence, for every loss rate and generator. A datagram of
type 4 makes the process call `sendto` exactly once, with the header that decodes
to type 8, seq_no 0, length 0, and leaves `packet_rcvd`, `buffer` and the number of
samples drawn as they are: in the main loop (the buffer holding a terminator; a
complete send enters the drain loop) and in the drain loop (chunk size between 0
and 512; a complete send stays in the drain loop). The alarm in the drain loop
ends the process with status 0, and a process that has exited sends nothing on
any event. -/
theorem teardown_idempotent (cfg : Config) (rng : Nat → Fin 281474976710656) (s : State)
    (bytes : List Byte) (sendOk : Bool) (htype : (received bytes).type = 4) :
    (s.control = Control.mainLoop → hasNul s.buffer 0 8193 = true →
      ∃ s1 : State, step cfg rng s (.recv (.datagram bytes) sendOk) = .ok s1 [ackmsg]
        ∧ s1.drawn = s.drawn ∧ s1.packet_rcvd = s.packet_rcvd ∧ s1.buffer = s.buffer
        ∧ (sendOk = true → ∃ mem1, s1.control = Control.drainLoop mem1))
    ∧ (∀ mem, s.control = Control.drainLoop mem → 0 ≤ cfg.chunkSize → cfg.chunkSize ≤ 512 →
      ∃ s1 : State, step cfg rng s (.recv (.datagram bytes) sendOk) = .ok s1 [ackmsg]
        ∧ s1.drawn = s.drawn ∧ s1.packet_rcvd = s.packet_rcvd ∧ s1.buffer = s.buffer
        ∧ (sendOk = true → ∃ mem1, s1.control = Control.drainLoop mem1))
    ∧ decode ackmsg = { type := 8, seq_no := 0, length := 0, data := [] }
    ∧ (∀ mem, s.control = Control.drainLoop mem →
      step cfg rng s .alarm = .ok { s with control := Control.exited 0 } [])
    ∧ (∀ k, s.control = Control.exited k → ∀ e, step cfg rng s e = .ok s []) := by
  refine ⟨?_, ?_, ackmsg_decode, ?_, ?_⟩
  · intro hopen hnul
    refine ⟨_, step_teardown_open cfg rng s (.datagram bytes) sendOk hopen htype hnul,
      rfl, rfl, rfl, ?_⟩
    intro hs
    subst hs
    exact ⟨_, rfl⟩
  · intro mem hclosing h0 h1
    refine ⟨_, step_teardown_closing cfg rng s mem bytes sendOk hclosing htype h0 h1,
      rfl, rfl, rfl, ?_⟩
    intro hs
    subst hs
    exact ⟨_, rfl⟩
  · intro mem hclosing
    apply step_alarm
    intro k hk
    rw [hclosing] at hk
    exact Control.noConfusion hk
  · intro k hk e
    exact step_exited cfg rng s k hk e

/-- C4 at loss rate 1: the first TEARDOWN at a fresh receiver and a second one in
the drain loop are each answered with one TEARDOWN_ACK; after the alarm a further
TEARDOWN is not answered. -/
theorem teardown_idempotent_witness :
    step cfgLossy rng0 fresh (.recv (.datagram teardown) true) = .ok closing [ackmsg]
    ∧ (∃ s1 : State, step cfgLossy rng0 fresh (.recv (.datagram teardown) true) = .ok s1 [ackmsg]
        ∧ s1.drawn = 0 ∧ s1.packet_rcvd = -1 ∧ s1.buffer = fresh.buffer
        ∧ (true = true → ∃ mem1, s1.control = Control.drainLoop mem1))
    ∧ (∃ s1 : State, step cfgLossy rng0 closing (.recv (.datagram teardown) true)
          = .ok s1 [ackmsg]
        ∧ s1.drawn = 0 ∧ s1.packet_rcvd = -1 ∧ s1.buffer = fresh.buffer
        ∧ (true = true → ∃ mem1, s1.control = Control.drainLoop mem1))
    ∧ step cfgLossy rng0 closing .alarm = .ok (CatchAlarm closing) []
    ∧ step cfgLossy rng0 (CatchAlarm closing) (.recv (.datagram teardown) true)
        = .ok (CatchAlarm closing) [] :=
  ⟨step_teardown_open cfgLossy rng0 fresh (.datagram teardown) true rfl (by decide) (by decide),
    (teardown_idempotent cfgLossy rng0 fresh teardown true (by decide)).1 rfl (by decide),
    (teardown_idempotent cfgLossy rng0 closing teardown true (by decide)).2.1 _ rfl
      (by decide) (by decide),
    (teardown_idempotent cfgLossy rng0 closing teardown true (by decide)).2.2.2.1 _ rfl,
    (teardown_idempotent cfgLossy rng0 (CatchAlarm closing) teardown true
      (by decide)).2.2.2.2 0 rfl _⟩

/-! ## Runs -/

theorem run_nil (cfg : Config) (rng : Nat → Fin 281474976710656) (s : State) :
    run cfg rng s [] = .ok s [] := rfl

theorem run_cons_ok (cfg : Config) (rng : Nat → Fin 281474976710656) (s s1 s2 : State)
    (e : Event) (es : List Event) (sent1 sent2 : List (List Byte))
    (h1 : step cfg rng s e = .ok s1 sent1) (h2 : run cfg rng s1 es = .ok s2 sent2) :
    run cfg rng s (e :: es) = .ok s2 (sent1 ++ sent2) := by
  simp [run, h1, h2]

/-- A run that ends well splits at its first event. -/
theorem run_cons_inv (cfg : Config) (rng : Nat → Fin 281474976710656) (s s2 : State)
    (e : Event) (es : List Event) (sent : List (List Byte))
    (h : run cfg rng s (e :: es) = .ok s2 sent) :
    ∃ s1 sent1 sent2, step cfg rng s e = .ok s1 sent1 ∧ run cfg rng s1 es = .ok s2 sent2
      ∧ sent = sent1 ++ sent2 := by
  unfold run at h
  cases h1 : step cfg rng s e with
  | undefined => simp [h1] at h
  | ok s1 sent1 =>
    cases h2 : run cfg rng s1 es with
    | undefined => simp [h1, h2] at h
    | ok s3 sent2 =>
      simp only [h1, h2, Outcome.ok.injEq] at h
      exact ⟨s1, sent1, sent2, rfl, by rw [h2, h.1], h.2.symm⟩

/-- A run that ends well over `es1 ++ es2` passes through the end of `es1`. -/
theorem run_append_inv (cfg : Config) (rng : Nat → Fin 281474976710656) :
    ∀ (es1 es2 : List Event) (s s2 : State) (sent : List (List Byte)),
      run cfg rng s (es1 ++ es2) = .ok s2 sent →
      ∃ s1 sent1 sent2, run cfg rng s es1 = .ok s1 sent1 ∧ run cfg rng s1 es2 = .ok s2 sent2
        ∧ sent = sent1 ++ sent2
  | [], es2, s, s2, sent, h => ⟨s, [], sent, rfl, h, rfl⟩
  | e :: es1, es2, s, s2, sent, h => by
    obtain ⟨sa, senta, sentb, ha, hb, hc⟩ := run_cons_inv cfg rng s s2 e (es1 ++ es2) sent h
    obtain ⟨s1, sent1, sent2, h1, h2, h3⟩ := run_append_inv cfg rng es1 es2 sa s2 sentb hb
    refine ⟨s1, senta ++ sent1, sent2, run_cons_ok cfg rng s sa s1 e es1 senta sent1 ha h1,
      h2, ?_⟩
    rw [hc, h3, List.append_assoc]

/-! ## C6: the counter never decreases -/

/-- One step leaves `packet_rcvd` as it is or adds one. -/
theorem step_counter (cfg : Config) (rng : Nat → Fin 281474976710656) (s s1 : State)
    (e : Event) (sent : List (List Byte)) (h : step cfg rng s e = .ok s1 sent) :
    s1.packet_rcvd = s.packet_rcvd ∨ s1.packet_rcvd = s.packet_rcvd + 1 := by
  unfold step at h
  cases hc : s.control with
  | exited k =>
    simp only [hc, Outcome.ok.injEq] at h
    rw [← h.1]
    exact Or.inl rfl
  | mainLoop =>
    cases e with
    | alarm =>
      simp only [hc, Outcome.ok.injEq] at h
      rw [← h.1]
      exact Or.inl rfl
    | recv r sendOk =>
      simp only [hc, mainIter, dataPath, DieWithError] at h
      split_ifs at h <;> simp only [Outcome.ok.injEq] at h <;> rw [← h.1] <;> simp
  | drainLoop mem =>
    cases e with
    | alarm =>
      simp only [hc, Outcome.ok.injEq] at h
      rw [← h.1]
      exact Or.inl rfl
    | recv r sendOk =>
      cases r with
      | error eintr =>
        simp only [hc, drainIter] at h
        split_ifs at h <;> simp only [Outcome.ok.injEq] at h <;> rw [← h.1] <;> simp
      | datagram bytes =>
        simp only [hc, drainIter, DieWithError] at h
        split_ifs at h <;> simp only [Outcome.ok.injEq] at h <;> rw [← h.1] <;> simp

theorem run_counter (cfg : Config) (rng : Nat → Fin 281474976710656) :
    ∀ (es : List Event) (s s1 : State) (sent : List (List Byte)),
      run cfg rng s es = .ok s1 sent →
      s.packet_rcvd ≤ s1.packet_rcvd ∧ s1.packet_rcvd ≤ s.packet_rcvd + es.length
  | [], s, s1, sent, h => by
    simp only [run, Outcome.ok.injEq] at h
    rw [← h.1]
    simp
  | e :: es, s, s1, sent, h => by
    obtain ⟨sa, senta, sentb, ha, hb, _⟩ := run_cons_inv cfg rng s s1 e es sent h
    have h1 := step_counter cfg rng s sa e senta ha
    have h2 := run_counter cfg rng es sa s1 sentb hb
    simp only [List.length_cons, Nat.cast_add, Nat.cast_one]
    omega

/-- C6. The counter `packet_rcvd` starts at -1; every step of the process, from
any state and on any event (packet in order or not, dropped or not, teardown,
failed receive, alarm), leaves it unchanged or increases it by exactly 1; and
along any run from the fresh state a later value is never below an earlier one. -/
theorem counter_monotone (cfg : Config) (rng : Nat → Fin 281474976710656) :
    fresh.packet_rcvd = -1
    ∧ (∀ (s s1 : State) (e : Event) (sent : List (List Byte)),
        step cfg rng s e = .ok s1 sent →
        s1.packet_rcvd = s.packet_rcvd ∨ s1.packet_rcvd = s.packet_rcvd + 1)
    ∧ (∀ (es1 es2 : List Event) (s2 : State) (sent : List (List Byte)),
        main cfg rng (es1 ++ es2) = .ok s2 sent →
        ∃ s1 sent1, main cfg rng es1 = .ok s1 sent1
          ∧ -1 ≤ s1.packet_rcvd ∧ s1.packet_rcvd ≤ s2.packet_rcvd
          ∧ s2.packet_rcvd ≤ s1.packet_rcvd + es2.length) := by
  refine ⟨rfl, ?_, ?_⟩
  · intro s s1 e sent h
    exact step_counter cfg rng s s1 e sent h
  · intro es1 es2 s2 sent h
    obtain ⟨s1, sent1, sent2, h1, h2, _⟩ := run_append_inv cfg rng es1 es2 fresh s2 sent h
    have ha := run_counter cfg rng es1 fresh s1 sent1 h1
    have hb := run_counter cfg rng es2 s1 s2 sent2 h2
    exact ⟨s1, sent1, h1, ha.1, hb.1, hb.2⟩

/-- C6 at chunk size 10: DATA 0 "HelloWorld" moves the counter from -1 to 0, and
over the run DATA 0, DATA 2 the counter after the first packet is not above the
counter after both. -/
theorem counter_monotone_witness :
    (afterHello.packet_rcvd = fresh.packet_rcvd
      ∨ afterHello.packet_rcvd = fresh.packet_rcvd + 1)
    ∧ ∃ s1 sent1, main cfg10 rng0 ([.recv (.datagram (dataPacket 0 helloWorld)) true])
          = .ok s1 sent1
        ∧ -1 ≤ s1.packet_rcvd ∧ s1.packet_rcvd ≤ 0
        ∧ (0 : Int) ≤ s1.packet_rcvd
            + ([Event.recv (.datagram (dataPacket 2 skippedSeq)) true].length : Nat) :=
  ⟨(counter_monotone cfg10 rng0).2.1 fresh afterHello
      (.recv (.datagram (dataPacket 0 helloWorld)) true) [currAck 0]
      (step_accept cfg10 rng0 fresh (dataPacket 0 helloWorld) true rfl (by decide)
        (gate_zero rng0 0) (by decide) (by decide) (by decide) (by decide)),
    (counter_monotone cfg10 rng0).2.2 [.recv (.datagram (dataPacket 0 helloWorld)) true]
      [.recv (.datagram (dataPacket 2 skippedSeq)) true]
      { afterHello with drawn := 2 } ([currAck 0] ++ ([currAck 0] ++ []))
      (run_cons_ok cfg10 rng0 fresh afterHello _ _ _ [currAck 0] _
        (step_accept cfg10 rng0 fresh (dataPacket 0 helloWorld) true rfl (by decide)
          (gate_zero rng0 0) (by decide) (by decide) (by decide) (by decide))
        (run_cons_ok cfg10 rng0 afterHello _ _ _ [] [currAck 0] []
          (step_reject cfg10 rng0 afterHello (.datagram (dataPacket 2 skippedSeq)) true rfl
            (by decide) (gate_zero rng0 1) (by decide) (by decide))
          rfl))⟩

/-! ## C5: loss rate 1 -/

theorem hasNul_zero (n : Nat) : hasNul (fun _ => (0 : Byte)) 0 (n + 1) = true := by
  simp [hasNul]

/-- With loss rate 1 and a chunk size between 0 and 512, one step from a state
whose buffer holds a terminator changes neither `packet_rcvd` nor `buffer` and
sends nothing but teardown acknowledgements. -/
theorem step_lossy (cfg : Config) (rng : Nat → Fin 281474976710656) (s : State) (e : Event)
    (hloss : cfg.lossRate = 1) (h0 : 0 ≤ cfg.chunkSize) (h1 : cfg.chunkSize ≤ 512)
    (hnul : hasNul s.buffer 0 8193 = true) :
    ∃ s1 sent, step cfg rng s e = .ok s1 sent ∧ s1.packet_rcvd = s.packet_rcvd
      ∧ s1.buffer = s.buffer ∧ ∀ m ∈ sent, m = ackmsg := by
  cases hc : s.control with
  | exited k => exact ⟨s, [], step_exited cfg rng s k hc e, rfl, rfl, by simp⟩
  | mainLoop =>
    cases e with
    | alarm =>
      have h : step cfg rng s .alarm = .ok (CatchAlarm s) [] := by simp only [step, hc]
      exact ⟨_, _, h, rfl, rfl, by simp⟩
    | recv r sendOk =>
      by_cases ht : (decode (mainRecv r)).type = 4
      · exact ⟨_, _, step_teardown_open cfg rng s r sendOk hc ht hnul, rfl, rfl, by simp⟩
      · have hg : cfg.lossRate > drand48 rng s.drawn := by
          rw [hloss]
          exact gate_one rng s.drawn
        exact ⟨_, _, step_drop cfg rng s r sendOk hc ht hg, rfl, rfl, by simp⟩
  | drainLoop mem =>
    cases e with
    | alarm =>
      have h : step cfg rng s .alarm = .ok (CatchAlarm s) [] := by simp only [step, hc]
      exact ⟨_, _, h, rfl, rfl, by simp⟩
    | recv r sendOk =>
      cases r with
      | error eintr =>
        have h : step cfg rng s (.recv (.error eintr) sendOk)
            = .ok (if eintr then { s with control := Control.exited 0 } else s) [] := by
          cases eintr <;> simp [step, hc, drainIter]
        refine ⟨_, _, h, ?_, ?_, by simp⟩ <;> cases eintr <;> rfl
      | datagram bytes =>
        have hsz := drainRecvSize_eq cfg h0 h1
        have hsmall : ¬ min bytes.length (drainRecvSize cfg) > sizeofPacket := by
          simp only [sizeofPacket]
          omega
        by_cases hw : wordAt (recvInto mem bytes (drainRecvSize cfg)) 0 = 4
        · have h : step cfg rng s (.recv (.datagram bytes) sendOk)
              = .ok { s with control :=
                  if sendOk then Control.drainLoop (recvInto mem bytes (drainRecvSize cfg))
                  else Control.exited 1 } [ackmsg] := by
            simp only [step, hc, drainIter, if_neg hsmall, if_pos hw]
            cases sendOk <;> simp [DieWithError]
          exact ⟨_, _, h, rfl, rfl, by simp⟩
        · have h : step cfg rng s (.recv (.datagram bytes) sendOk)
              = .ok { s with control :=
                  Control.drainLoop (recvInto mem bytes (drainRecvSize cfg)) } [] := by
            simp only [step, hc, drainIter, if_neg hsmall, if_neg hw]
          exact ⟨_, _, h, rfl, rfl, by simp⟩

theorem run_lossy (cfg : Config) (rng : Nat → Fin 281474976710656)
    (hloss : cfg.lossRate = 1) (h0 : 0 ≤ cfg.chunkSize) (h1 : cfg.chunkSize ≤ 512) :
    ∀ (es : List Event) (s : State), hasNul s.buffer 0 8193 = true →
      ∃ s1 sent, run cfg rng s es = .ok s1 sent ∧ s1.packet_rcvd = s.packet_rcvd
        ∧ s1.buffer = s.buffer ∧ ∀ m ∈ sent, m = ackmsg
  | [], s, _ => ⟨s, [], rfl, rfl, rfl, by simp⟩
  | e :: es, s, hnul => by
    obtain ⟨sa, senta, ha, hp, hb, hm⟩ := step_lossy cfg rng s e hloss h0 h1 hnul
    obtain ⟨s1, sentb, hr, hp1, hb1, hm1⟩ :=
      run_lossy cfg rng hloss h0 h1 es sa (by rw [hb]; exact hnul)
    refine ⟨s1, senta ++ sentb, run_cons_ok cfg rng s sa s1 e es senta sentb ha hr,
      by rw [hp1, hp], by rw [hb1, hb], ?_⟩
    intro m hmem
    rcases List.mem_append.mp hmem with h | h
    · exact hm m h
    · exact hm1 m h

/-- C5 at the failing input. Loss rate 1, chunk size 10, fresh receiver, the
events TEARDOWN, TEARDOWN, empty datagram. The empty datagram is not a teardown
packet: its type field reads 0, and in the main loop it is dropped without a
reply. In the drain loop it is answered with a third teardown acknowledgement,
because that loop does not clear `currPacket` before `recvfrom` and the type bytes
still hold the 4 of the TEARDOWN received before it. On every sequence of events
`packet_rcvd` stays -1 and the buffer stays zeroed. -/
theorem lossy_stale_reply :
    (received []).type = 0
    ∧ step cfgLossy rng0 fresh (.recv (.datagram []) true) = .ok { fresh with drawn := 1 } []
    ∧ main cfgLossy rng0
        [.recv (.datagram teardown) true, .recv (.datagram teardown) true,
          .recv (.datagram []) true]
      = .ok { fresh with control := Control.drainLoop staleMem } [ackmsg, ackmsg, ackmsg]
    ∧ step cfgLossy rng0 { fresh with control := Control.drainLoop staleMem }
        (.recv (.datagram []) true)
      = .ok { fresh with control := Control.drainLoop staleMem } [ackmsg]
    ∧ ∀ es : List Event, ∃ s1 sent, main cfgLossy rng0 es = .ok s1 sent
        ∧ s1.packet_rcvd = -1 ∧ s1.buffer = fresh.buffer :=
  ⟨by decide,
    step_drop cfgLossy rng0 fresh (.datagram []) true rfl (by decide) (gate_one rng0 0),
    rfl, rfl,
    fun es =>
      match run_lossy cfgLossy rng0 rfl (by decide) (by decide) es fresh (hasNul_zero 8192) with
      | ⟨s1, sent, h, hp, hb, _⟩ => ⟨s1, sent, h, hp, hb⟩⟩

/-! ## C8: short datagrams -/

/-- The memory image of `currPacket` for a datagram of at most 524 bytes: the
datagram, then the zeros left by `memset`. -/
theorem mainRecv_short (bytes : List Byte) (h : bytes.length ≤ 524) :
    mainRecv (.datagram bytes) = bytes ++ List.replicate (524 - bytes.length) 0 := by
  show recvInto zeroPacket bytes sizeofPacket = _
  unfold recvInto zeroPacket sizeofPacket
  rw [Nat.min_eq_left h, List.take_of_length_le (le_refl _), List.drop_replicate]

theorem mainRecv_pad (bytes : List Byte) (h : bytes.length < 12) :
    mainRecv (.datagram (bytes ++ List.replicate (12 - bytes.length) 0))
      = mainRecv (.datagram bytes) := by
  rw [mainRecv_short bytes (by omega), mainRecv_short _ (by simp; omega)]
  simp only [List.length_append, List.length_replicate, List.append_assoc,
    List.append_cancel_left_eq, List.append_replicate_replicate]
  congr 1
  omega

theorem memcpy_zero (buffer : Nat → Byte) (off : Nat) (data : List Byte) :
    memcpy buffer off data 0 = buffer := by
  funext i
  simp [memcpy]

/-- C8, as the code behaves: the main loop has no length check and no decode
error. A datagram shorter than the 12 header bytes is handled exactly as the
datagram completed with zero bytes to 12 bytes, because `currPacket` is zeroed
before `recvfrom`. In particular the empty datagram is the packet with type 0,
seq_no 0, length 0: when it passes the loss gate at `packet_rcvd = -1` it is
admitted, `packet_rcvd` becomes 0, the buffer is unchanged and the ACK for 0 is
sent. -/
theorem short_datagram (cfg : Config) (rng : Nat → Fin 281474976710656) (s : State)
    (sendOk : Bool) (hopen : s.control = Control.mainLoop) :
    (∀ bytes : List Byte, bytes.length < 12 →
      step cfg rng s (.recv (.datagram bytes) sendOk)
        = step cfg rng s
            (.recv (.datagram (bytes ++ List.replicate (12 - bytes.length) 0)) sendOk))
    ∧ ((received []).type = 0 ∧ (received []).seq_no = 0 ∧ (received []).length = 0)
    ∧ (s.packet_rcvd = -1 → ¬ cfg.lossRate > drand48 rng s.drawn →
      ∃ s1 : State, step cfg rng s (.recv (.datagram []) sendOk) = .ok s1 [currAck 0]
        ∧ s1.packet_rcvd = 0 ∧ s1.buffer = s.buffer) := by
  refine ⟨?_, by decide, ?_⟩
  · intro bytes hlen
    simp only [step, hopen, mainIter, mainRecv_pad bytes hlen]
  · intro hfresh hgate
    have ht : (received []).type ≠ 4 := by decide
    have hs : (received []).seq_no = s.packet_rcvd + 1 := by
      rw [hfresh]
      decide
    have h := step_accept cfg rng s [] sendOk hopen ht hgate hs (by decide)
      (by simp [show (received []).seq_no = 0 by decide])
      (by simp [show (received []).seq_no = 0 by decide,
        show (received []).length = 0 by decide])
    refine ⟨_, h, show (received []).seq_no = 0 by decide, ?_⟩
    simp only [show (received []).length = 0 by decide, Int.toNat_zero]
    exact memcpy_zero _ _ _

/-- C8 as stated fails: the empty datagram at a fresh receiver with loss rate 0 is
not dropped; it is answered with the ACK for 0 and `packet_rcvd` goes from -1 to 0. -/
theorem short_datagram_counterexample :
    ([] : List Byte).length < 12
    ∧ fresh.packet_rcvd = -1
    ∧ ∃ s1 : State, step cfg10 rng0 fresh (.recv (.datagram []) true) = .ok s1 [currAck 0]
      ∧ s1.packet_rcvd = 0 :=
  ⟨by decide, rfl, _,
    step_accept cfg10 rng0 fresh [] true rfl (by decide) (gate_zero rng0 0) (by decide)
      (by decide) (by decide) (by decide),
    rfl⟩

/-- The amended C8 at a three-byte datagram and at the empty datagram. -/
theorem short_datagram_witness :
    step cfg10 rng0 fresh (.recv (.datagram [0, 0, 1]) true)
      = step cfg10 rng0 fresh (.recv (.datagram ([0, 0, 1] ++ List.replicate (12 - 3) 0)) true)
    ∧ ∃ s1 : State, step cfg10 rng0 fresh (.recv (.datagram []) true) = .ok s1 [currAck 0]
        ∧ s1.packet_rcvd = 0 ∧ s1.buffer = fresh.buffer :=
  ⟨(short_datagram cfg10 rng0 fresh true rfl).1 [0, 0, 1] (by decide),
    (short_datagram cfg10 rng0 fresh true rfl).2.2 rfl (gate_zero rng0 0)⟩

/-! ## C9: failed sends -/

/-- C9 at the failing input. In the drain loop, a retransmitted TEARDOWN whose
acknowledgement `sendto` does not send in full runs `DieWithError`: the process
exits with status 1 and a further TEARDOWN is not answered. On the data path a
failed send of the ACK exits with status 1 as well. -/
theorem teardown_ack_failure_fatal :
    step cfg10 rng0 closing (.recv (.datagram teardown) false)
      = .ok { closing with control := Control.exited 1 } [ackmsg]
    ∧ step cfg10 rng0 { closing with control := Control.exited 1 }
        (.recv (.datagram teardown) true)
      = .ok { closing with control := Control.exited 1 } []
    ∧ step cfg10 rng0 fresh (.recv (.datagram (dataPacket 0 helloWorld)) false)
      = .ok { afterHello with control := Control.exited 1 } [currAck 0] :=
  ⟨step_teardown_closing cfg10 rng0 closing _ teardown false rfl (by decide) (by decide)
      (by decide),
    step_exited cfg10 rng0 _ 1 rfl _,
    step_accept cfg10 rng0 fresh (dataPacket 0 helloWorld) false rfl (by decide)
      (gate_zero rng0 0) (by decide) (by decide) (by decide) (by decide)⟩

/-! ## C10: dispatch on the type field -/

theorem currAck_type (n : Int) : (decode (currAck n)).type = 2 := by
  have h := decode_encodeHeader 2 n 0 []
  rw [List.append_nil] at h
  rw [currAck, h]
  show toInt32 (toUInt32 2) = 2
  decide

/-- What the data path sends is of type 2, and it never enters the drain loop. -/
theorem dataPath_sends (cfg : Config) (rng : Nat → Fin 281474976710656) (s s1 : State)
    (p : gbnpacket) (sendOk : Bool) (sent : List (List Byte))
    (hopen : s.control = Control.mainLoop)
    (h : dataPath cfg rng s p sendOk = .ok s1 sent) :
    (∀ m ∈ sent, (decode m).type = 2) ∧ ∀ mem, s1.control ≠ Control.drainLoop mem := by
  simp only [dataPath, DieWithError] at h
  split_ifs at h <;> simp only [Outcome.ok.injEq] at h <;> rw [← h.1, ← h.2] <;>
    simp [currAck_type, hopen]

/-- C10, as the code behaves: in the main loop the only test on the type field is
`type == 4`. A packet of type 4 is answered with the teardown acknowledgement
(type 8) and changes neither `packet_rcvd` nor `buffer`. A packet of any other
type, 2 and 8 included, goes through the data path: the loss gate, the test
`seq_no == packet_rcvd + 1` and the ACK (type 2); when it passes the gate, is in
order and its copy lies inside the buffer it is admitted like a data packet. -/
theorem type_dispatch (cfg : Config) (rng : Nat → Fin 281474976710656) (s : State)
    (bytes : List Byte) (sendOk : Bool) (hopen : s.control = Control.mainLoop) :
    ((received bytes).type = 4 → hasNul s.buffer 0 8193 = true →
      ∃ s1 : State, step cfg rng s (.recv (.datagram bytes) sendOk) = .ok s1 [ackmsg]
        ∧ (decode ackmsg).type = 8
        ∧ s1.packet_rcvd = s.packet_rcvd ∧ s1.buffer = s.buffer ∧ s1.drawn = s.drawn)
    ∧ ((received bytes).type ≠ 4 →
      step cfg rng s (.recv (.datagram bytes) sendOk)
          = dataPath cfg rng s (received bytes) sendOk
        ∧ ∀ (s1 : State) (sent : List (List Byte)),
          step cfg rng s (.recv (.datagram bytes) sendOk) = .ok s1 sent →
          (∀ m ∈ sent, (decode m).type = 2) ∧ ∀ mem, s1.control ≠ Control.drainLoop mem)
    ∧ ((received bytes).type ≠ 4 → ¬ cfg.lossRate > drand48 rng s.drawn →
      (received bytes).seq_no = s.packet_rcvd + 1 →
      0 ≤ (received bytes).length → (received bytes).length ≤ 512 →
      0 ≤ cfg.chunkSize * (received bytes).seq_no →
      cfg.chunkSize * (received bytes).seq_no + (received bytes).length ≤ 8193 →
      ∃ s1 : State,
        step cfg rng s (.recv (.datagram bytes) sendOk)
          = .ok s1 [currAck (received bytes).seq_no]
        ∧ s1.packet_rcvd = (received bytes).seq_no
        ∧ ∀ i : Nat, i < (received bytes).length.toNat →
            s1.buffer ((cfg.chunkSize * (received bytes).seq_no).toNat + i)
              = byteAt (received bytes).data i) := by
  have hdisp : (received bytes).type ≠ 4 →
      step cfg rng s (.recv (.datagram bytes) sendOk)
        = dataPath cfg rng s (received bytes) sendOk := by
    intro ht
    unfold received at ht
    simp only [step, hopen, mainIter, if_neg ht, received]
  refine ⟨?_, ?_, ?_⟩
  · intro ht hnul
    exact ⟨_, step_teardown_open cfg rng s (.datagram bytes) sendOk hopen ht hnul,
      by decide, rfl, rfl, rfl⟩
  · intro ht
    refine ⟨hdisp ht, ?_⟩
    intro s1 sent h
    rw [hdisp ht] at h
    exact dataPath_sends cfg rng s s1 _ sendOk sent hopen h
  · intro ht hgate hseq hl0 hl1 hoff hfit
    refine ⟨_, step_accept cfg rng s bytes sendOk hopen ht hgate hseq ⟨hl0, hl1⟩ hoff hfit,
      rfl, ?_⟩
    intro i hi
    exact memcpy_inside _ _ _ _ _ hi

/-- C10 as stated fails: a packet of type 2 (ACK) with seq_no 0 and the payload
"HelloWorld", at a fresh receiver with loss rate 0, is admitted as data:
`packet_rcvd` goes from -1 to 0 and `buffer[0]` becomes the first payload byte. -/
theorem type_dispatch_counterexample :
    (received (encodeHeader 2 0 10 ++ helloWorld)).type = 2
    ∧ fresh.packet_rcvd = -1 ∧ fresh.buffer 0 = 0
    ∧ ∃ s1 : State,
      step cfg10 rng0 fresh (.recv (.datagram (encodeHeader 2 0 10 ++ helloWorld)) true)
        = .ok s1 [currAck 0]
      ∧ s1.packet_rcvd = 0 ∧ s1.buffer 0 = 72 :=
  ⟨by decide, rfl, rfl, _,
    step_accept cfg10 rng0 fresh (encodeHeader 2 0 10 ++ helloWorld) true rfl (by decide)
      (gate_zero rng0 0) (by decide) (by decide) (by decide) (by decide),
    rfl, by decide⟩

/-- The amended C10 at a packet of type 8 (TEARDOWN_ACK) with seq_no 0: it is
admitted by the data path; and at a packet of type 4: teardown. -/
theorem type_dispatch_witness :
    (∃ s1 : State,
      step cfg10 rng0 fresh (.recv (.datagram (encodeHeader 8 0 10 ++ helloWorld)) true)
        = .ok s1 [currAck 0]
      ∧ s1.packet_rcvd = 0
      ∧ ∀ i : Nat, i < 10 → s1.buffer (0 + i)
          = byteAt (received (encodeHeader 8 0 10 ++ helloWorld)).data i)
    ∧ ∃ s1 : State, step cfg10 rng0 fresh (.recv (.datagram teardown) true) = .ok s1 [ackmsg]
        ∧ (decode ackmsg).type = 8
        ∧ s1.packet_rcvd = -1 ∧ s1.buffer = fresh.buffer ∧ s1.drawn = 0 :=
  ⟨(type_dispatch cfg10 rng0 fresh (encodeHeader 8 0 10 ++ helloWorld) true rfl).2.2
      (by decide) (gate_zero rng0 0) (by decide) (by decide) (by decide) (by decide)
      (by decide),
    (type_dispatch cfg10 rng0 fresh teardown true rfl).1 (by decide) (by decide)⟩

/-! ## C3: delivery in order -/

theorem encodeHeader_length (t q l : Int) : (encodeHeader t q l).length = 12 := by
  simp [encodeHeader, htonl]

/-- The packet the main loop sees for a data packet written by a sender. -/
theorem received_dataPacket (k : Nat) (p : List Byte) (hk : k < 2147483648)
    (hp : p.length ≤ 512) :
    received (dataPacket k p)
      = { type := 0, seq_no := k, length := p.length,
          data := p ++ List.replicate (512 - p.length) 0 } := by
  have hlen : (dataPacket k p).length ≤ 524 := by
    simp only [dataPacket, List.length_append, encodeHeader_length]
    omega
  unfold received
  rw [mainRecv_short _ hlen]
  unfold dataPacket
  rw [List.append_assoc, decode_encodeHeader,
    toInt32_toUInt32 0 (by omega) (by omega),
    toInt32_toUInt32 (k : Int) (by omega) (by omega),
    toInt32_toUInt32 (p.length : Int) (by omega) (by omega)]
  simp only [List.length_append, encodeHeader_length]
  congr 3
  omega

theorem byteAt_append_left (p z : List Byte) (i : Nat) (h : i < p.length) :
    byteAt (p ++ z) i = byteAt p i := by
  unfold byteAt
  rw [List.getD_append _ _ _ _ h]

theorem byteAt_append_right (p z : List Byte) (i : Nat) (h : p.length ≤ i) :
    byteAt (p ++ z) i = byteAt z (i - p.length) := by
  unfold byteAt
  rw [List.getD_append_right _ _ _ _ h]

theorem memcpy_append (buffer : Nat → Byte) (off : Nat) (p z : List Byte) :
    memcpy buffer off (p ++ z) p.length = memcpy buffer off p p.length := by
  funext i
  unfold memcpy
  split
  · rename_i h
    exact byteAt_append_left p z _ (by omega)
  · rfl

/-- The main loop, loss rate 0, on the data packet numbered `k` when
`packet_rcvd = k - 1`. -/
theorem step_inOrder (cfg : Config) (rng : Nat → Fin 281474976710656) (c k : Nat) (s : State)
    (p : List Byte) (hloss : cfg.lossRate = 0) (hc : cfg.chunkSize = c)
    (hopen : s.control = Control.mainLoop) (hs : s.packet_rcvd = (k : Int) - 1)
    (hk : k < 2147483648) (hp : p.length ≤ 512) (hfit : k * c + p.length ≤ 8193) :
    step cfg rng s (.recv (.datagram (dataPacket k p)) true)
      = .ok
          { packet_rcvd := k
            buffer := memcpy s.buffer (k * c) p p.length
            drawn := s.drawn + 1
            control := Control.mainLoop }
          [currAck k] := by
  have hr := received_dataPacket k p hk hp
  have hg : ¬ cfg.lossRate > drand48 rng s.drawn := by
    rw [hloss]
    exact gate_zero rng s.drawn
  have h := step_accept cfg rng s (dataPacket k p) true hopen (by rw [hr]; simp) hg
    (by rw [hr, hs]; simp) (by rw [hr]; simp; omega)
    (by rw [hr, hc]; positivity)
    (by rw [hr, hc]; push_cast; norm_cast; rw [Nat.mul_comm]; exact hfit)
  rw [h, hr, hc]
  simp only [if_true, Int.toNat_ofNat]
  have hoff : ((c : Int) * (k : Int)).toNat = k * c := by
    rw [← Nat.cast_mul, Int.toNat_ofNat, Nat.mul_comm]
  rw [hoff, memcpy_append]

/-- The receiver, loss rate 0, on payloads delivered in order from number `k`:
the buffer is the one obtained by copying each payload to its offset. -/
theorem run_inOrder (cfg : Config) (rng : Nat → Fin 281474976710656) (c : Nat)
    (hloss : cfg.lossRate = 0) (hc : cfg.chunkSize = c) :
    ∀ (ps : List (List Byte)) (k : Nat) (s : State),
      s.control = Control.mainLoop → s.packet_rcvd = (k : Int) - 1 →
      k + ps.length ≤ 2147483648 → (∀ p ∈ ps, p.length ≤ 512) → fits c k ps →
      run cfg rng s (inOrder k ps)
        = .ok
            { packet_rcvd := (k : Int) + ps.length - 1
              buffer := place c k ps s.buffer
              drawn := s.drawn + ps.length
              control := Control.mainLoop }
            ((List.range' k ps.length).map (fun i => currAck (i : Nat)))
  | [], k, s, hopen, hs, _, _, _ => by
    cases s
    simp only at hopen hs
    simp [inOrder, run, place, hopen, hs]
  | p :: ps, k, s, hopen, hs, hk, hp, hfit => by
    simp only [List.length_cons] at hk
    have h1 := step_inOrder cfg rng c k s p hloss hc hopen hs (by omega)
      (hp p (List.mem_cons_self _ _)) hfit.1
    have h2 := run_inOrder cfg rng c hloss hc ps (k + 1)
      { packet_rcvd := k, buffer := memcpy s.buffer (k * c) p p.length,
        drawn := s.drawn + 1, control := Control.mainLoop }
      rfl (by simp) (by omega) (fun q hq => hp q (List.mem_cons_of_mem _ hq)) hfit.2
    have h3 := run_cons_ok cfg rng s _ _ _ (inOrder (k + 1) ps) _ _ h1 h2
    rw [inOrder, h3]
    simp only [place, List.length_cons, List.range'_succ, List.map_cons, List.singleton_append,
      Nat.cast_add, Nat.cast_one]
    congr 2
    · omega
    · omega

theorem full_tail (c : Nat) (p : List Byte) (ps : List (List Byte))
    (h : ∀ q ∈ (p :: ps).dropLast, q.length = c) : ∀ q ∈ ps.dropLast, q.length = c := by
  intro q hq
  cases ps with
  | nil => simp at hq
  | cons r rs =>
    apply h
    rw [List.dropLast_cons₂]
    exact List.mem_cons_of_mem _ hq

theorem full_head (c : Nat) (p r : List Byte) (rs : List (List Byte))
    (h : ∀ q ∈ (p :: r :: rs).dropLast, q.length = c) : p.length = c := by
  apply h
  rw [List.dropLast_cons₂]
  exact List.mem_cons_self _ _

/-- When every payload but the last has exactly `c` bytes, copying each payload
to its offset writes the concatenation of the payloads, and nothing else. -/
theorem place_full (c : Nat) :
    ∀ (ps : List (List Byte)) (k : Nat) (buffer : Nat → Byte) (j : Nat),
      (∀ q ∈ ps.dropLast, q.length = c) →
      place c k ps buffer j
        = if k * c ≤ j ∧ j < k * c + ps.flatten.length then byteAt ps.flatten (j - k * c)
          else buffer j
  | [], k, buffer, j, _ => by
    have h : ¬ (k * c ≤ j ∧ j < k * c + ([] : List (List Byte)).flatten.length) := by
      simp only [List.flatten_nil, List.length_nil]
      omega
    rw [place, if_neg h]
  | [p], k, buffer, j, _ => by simp [place, memcpy]
  | p :: r :: rs, k, buffer, j, h => by
    have hp := full_head c p r rs h
    have ih := place_full c (r :: rs) (k + 1) (memcpy buffer (k * c) p p.length) j
      (full_tail c p (r :: rs) h)
    rw [place, ih]
    have e1 : (p :: r :: rs).flatten = p ++ (r :: rs).flatten := rfl
    rw [e1, List.length_append, hp]
    have e2 : (k + 1) * c = k * c + c := by ring
    rw [e2]
    by_cases h1 : k * c + c ≤ j ∧ j < k * c + c + (r :: rs).flatten.length
    · rw [if_pos h1, if_pos (by omega), byteAt_append_right _ _ _ (by omega), hp]
      congr 1
      omega
    · rw [if_neg h1]
      by_cases h2 : k * c ≤ j ∧ j < k * c + c
      · rw [if_pos (by omega)]
        unfold memcpy
        rw [if_pos (by omega), byteAt_append_left _ _ _ (by omega)]
      · rw [if_neg (by omega)]
        unfold memcpy
        rw [if_neg (by omega)]

theorem fits_of_full (c : Nat) :
    ∀ (ps : List (List Byte)) (k : Nat), (∀ q ∈ ps.dropLast, q.length = c) →
      k * c + ps.flatten.length ≤ 8193 → fits c k ps
  | [], _, _, _ => trivial
  | [p], k, _, h => by
    simp only [List.flatten_cons, List.flatten_nil, List.append_nil] at h
    exact ⟨h, trivial⟩
  | p :: r :: rs, k, hfull, h => by
    have hp := full_head c p r rs hfull
    have e1 : (p :: r :: rs).flatten = p ++ (r :: rs).flatten := rfl
    rw [e1, List.length_append] at h
    refine ⟨by omega, fits_of_full c (r :: rs) (k + 1) (full_tail c p (r :: rs) hfull) ?_⟩
    have e2 : (k + 1) * c = k * c + c := by ring
    omega

theorem map_range_eq (f : Nat → Byte) (l : List Byte)
    (h : ∀ j, j < l.length → f j = byteAt l j) : (List.range l.length).map f = l := by
  apply List.ext_getElem
  · simp
  · intro i h1 h2
    simp only [List.getElem_map, List.getElem_range]
    rw [h i h2]
    unfold byteAt
    rw [List.getD_eq_getElem _ _ h2]

/-- C3, as the code behaves: loss rate 0, chunk size `c` at most 512, a fresh
receiver, and payloads delivered in order as data packets 0, 1, ..., N-1, every
payload but the last of exactly `c` bytes, the last of at most `c` bytes, all of
them together at most 8192 bytes. Then the run is defined, the reply to packet
`i` is the ACK for `i` (type 2, seq_no `i`, length 0), `packet_rcvd` ends at N-1,
the first bytes of the buffer are the concatenation of the payloads and the rest
of the buffer is zero. -/
theorem reassembly_full_chunks (cfg : Config) (rng : Nat → Fin 281474976710656) (c : Nat)
    (payloads : List (List Byte))
    (hloss : cfg.lossRate = 0) (hc : cfg.chunkSize = c) (hc512 : c ≤ 512)
    (hfull : ∀ p ∈ payloads.dropLast, p.length = c)
    (hlen : ∀ p ∈ payloads, p.length ≤ c)
    (hcap : payloads.flatten.length ≤ 8192)
    (hcount : payloads.length ≤ 2147483648) :
    ∃ s1 : State,
      main cfg rng (inOrder 0 payloads)
        = .ok s1 ((List.range payloads.length).map (fun i => currAck (i : Nat)))
      ∧ (∀ i : Nat, i < payloads.length →
          decode (currAck (i : Nat)) = { type := 2, seq_no := i, length := 0, data := [] })
      ∧ s1.packet_rcvd = (payloads.length : Int) - 1
      ∧ (List.range payloads.flatten.length).map s1.buffer = payloads.flatten
      ∧ ∀ j : Nat, payloads.flatten.length ≤ j → s1.buffer j = 0 := by
  have hrun := run_inOrder cfg rng c hloss hc payloads 0 fresh rfl rfl (by omega)
    (fun p hp => le_trans (hlen p hp) hc512)
    (fits_of_full c payloads 0 hfull (by omega))
  rw [← List.range_eq_range'] at hrun
  refine ⟨_, hrun, ?_, by simp, ?_, ?_⟩
  · intro i hi
    exact currAck_decode _ (by omega) (by omega)
  · apply map_range_eq
    intro j hj
    show place c 0 payloads fresh.buffer j = _
    rw [place_full c payloads 0 _ j hfull, if_pos (by omega)]
    simp
  · intro j hj
    show place c 0 payloads fresh.buffer j = _
    rw [place_full c payloads 0 _ j hfull, if_neg (by omega)]
    rfl

/-- The amended C3 at chunk size 10: DATA 0 "HelloWorld" then DATA 1 "MiddleData"
give ACK 0, ACK 1 and the first 20 bytes "HelloWorldMiddleData". -/
theorem reassembly_full_chunks_witness :
    ∃ s1 : State,
      main cfg10 rng0 (inOrder 0 [helloWorld, middleData]) = .ok s1 [currAck 0, currAck 1]
      ∧ (∀ i : Nat, i < 2 →
          decode (currAck (i : Nat)) = { type := 2, seq_no := i, length := 0, data := [] })
      ∧ s1.packet_rcvd = 1
      ∧ (List.range 20).map s1.buffer = helloWorld ++ middleData
      ∧ ∀ j : Nat, 20 ≤ j → s1.buffer j = 0 :=
  reassembly_full_chunks cfg10 rng0 10 [helloWorld, middleData] rfl rfl (by decide)
    (by decide) (by decide) (by decide) (by decide)

/-- C3 as stated fails: chunk size 10, loss rate 0, fresh receiver, DATA 0 "Hello"
and DATA 1 "World" in order, both lengths within the chunk size. The replies are
ACK 0 and ACK 1, but the first ten bytes of the buffer are "Hello", five zero
bytes, not "HelloWorld": the second payload lies at offset 10. -/
theorem reassembly_counterexample :
    (∀ p ∈ [hello5, world5], p.length ≤ 10)
    ∧ ∃ s1 : State,
      main cfg10 rng0 (inOrder 0 [hello5, world5]) = .ok s1 [currAck 0, currAck 1]
      ∧ (List.range 10).map s1.buffer = hello5 ++ [0, 0, 0, 0, 0]
      ∧ (List.range 10).map s1.buffer ≠ hello5 ++ world5
      ∧ (List.range 5).map (fun i => s1.buffer (10 + i)) = world5 :=
  ⟨by decide, _,
    run_inOrder cfg10 rng0 10 rfl rfl [hello5, world5] 0 fresh rfl rfl (by decide) (by decide)
      ⟨by decide, by decide, trivial⟩,
    by decide, by decide, by decide⟩

/-! ## C7: no capacity check -/

theorem place_empty (c : Nat) :
    ∀ (n k : Nat) (buffer : Nat → Byte), place c k (List.replicate n []) buffer = buffer
  | 0, _, _ => rfl
  | n + 1, k, buffer => by
    rw [List.replicate_succ, place]
    simp only [List.length_nil]
    rw [memcpy_zero, place_empty c n (k + 1) buffer]

theorem fits_empty (c : Nat) (hc : c ≤ 512) :
    ∀ (n k : Nat), k + n ≤ 16 → fits c k (List.replicate n [])
  | 0, _, _ => trivial
  | n + 1, k, h => by
    rw [List.replicate_succ]
    refine ⟨?_, fits_empty c hc n (k + 1) (by omega)⟩
    simp only [List.length_nil]
    have : k * c ≤ 16 * 512 := Nat.mul_le_mul (by omega) hc
    omega

/-- The state `after16` is reached from the fresh state by sixteen data packets
of length 0, numbered 0 to 15. -/
theorem after16_reached :
    main cfg512 rng0 (inOrder 0 (List.replicate 16 []))
      = .ok after16 ((List.range' 0 16).map (fun i => currAck (i : Nat))) := by
  have h := run_inOrder cfg512 rng0 512 rfl rfl (List.replicate 16 []) 0 fresh rfl rfl
    (by decide) (by intro p hp; rw [List.eq_of_mem_replicate hp]; decide)
    (fits_empty 512 (le_refl _) 16 0 (by decide))
  rw [place_empty] at h
  exact h

/-- C7 at the failing input. Chunk size 512, loss rate 0: sixteen data packets of
length 0 numbered 0 to 15 bring `packet_rcvd` to 15; then DATA 16 of length 1
has offset plus length 8193, above the capacity 8192. The code does not reject
it: `packet_rcvd` becomes 16, the ACK for 16 is sent and the byte is copied to
`buffer[8192]`, the terminator that lines 31-32 reserve and set to 0. -/
theorem capacity_overwrites_terminator :
    main cfg512 rng0 (inOrder 0 (List.replicate 16 []))
      = .ok after16 ((List.range' 0 16).map (fun i => currAck (i : Nat)))
    ∧ cfg512.chunkSize * (received (dataPacket 16 [65])).seq_no
        + (received (dataPacket 16 [65])).length > 8192
    ∧ ∃ s1 : State,
      step cfg512 rng0 after16 (.recv (.datagram (dataPacket 16 [65])) true)
        = .ok s1 [currAck 16]
      ∧ s1.packet_rcvd = 16 ∧ after16.packet_rcvd = 15
      ∧ s1.buffer 8192 = 65 ∧ after16.buffer 8192 = 0 :=
  ⟨after16_reached, by decide,
    _, step_accept cfg512 rng0 after16 (dataPacket 16 [65]) true rfl (by decide)
      (gate_zero rng0 16) (by decide) (by decide) (by decide) (by decide),
    rfl, rfl, by decide, rfl⟩

end GoBackN
